import Mathlib

/-!
Shallow embedding of the timer state machine of `src/hooks/useTimerState.js`
(the persistence-aware version, the one defining `endTime` and the `RESTORE`
action) and of the geometry helper `isOnCircleEdge` of `src/utils/math.js`,
together with theorems settling the specification claims about them.

Conventions of the embedding:
- JS numbers holding whole milliseconds/seconds are modelled as `Int`
  (every quantity involved stays far below 2^53, so JS number arithmetic is
  exact integer arithmetic on them).
- `Math.floor(x / 1000)` on an integer `x` is floor division, `Int.fdiv x 1000`.
- A nullable timestamp field is `Option Int`; the JS truthiness test
  `if (state.endTime)` is true exactly for `some e` with `e ≠ 0`.
- `Date.now()` is passed explicitly: each dispatch takes the wall-clock time
  `now` at which it happens.
- The floating-point geometry of `math.js` is modelled over `ℝ`.
-/

namespace TheZen

/-- The `status` field: `idle | adjusting | committing | running | paused |
completed | settings` (comment at the top of `useTimerState.js`). -/
inductive Status where
  | idle
  | adjusting
  | committing
  | running
  | paused
  | completed
  | settings
deriving DecidableEq, Repr

/-- The timer state record, fields as in `INITIAL_STATE` of
`useTimerState.js`: `status`, `duration` (seconds), `remaining` (seconds),
`startTime`, `pausedAt`, `endTime` (nullable millisecond timestamps). -/
structure TimerState where
  status : Status
  duration : Int
  remaining : Int
  startTime : Option Int
  pausedAt : Option Int
  endTime : Option Int
deriving DecidableEq, Repr

/-- `INITIAL_STATE`: idle, 25 minutes, nothing scheduled. -/
def INITIAL_STATE : TimerState :=
  { status := Status.idle
    duration := 25 * 60
    remaining := 25 * 60
    startTime := none
    pausedAt := none
    endTime := none }

/-- The actions dispatched to `timerReducer`. `RESTORE` carries
`action.savedState` (possibly null); `SET_DURATION` carries
`action.minutes`. -/
inductive Action where
  | RESTORE (savedState : Option TimerState)
  | START_ADJUST
  | SET_DURATION (minutes : Int)
  | END_ADJUST
  | ENTER_DROP_ZONE
  | EXIT_DROP_ZONE
  | COMMIT
  | TICK
  | PAUSE
  | RESUME
  | CANCEL
  | RESET
  | OPEN_SETTINGS
  | CLOSE_SETTINGS
  | COMPLETE_ACKNOWLEDGED
deriving DecidableEq, Repr

/-- `calculateRemaining(state)`: while running with a (truthy) `endTime`,
`Math.max(0, Math.floor((state.endTime - now) / 1000))`; otherwise the stored
`state.remaining`. -/
def calculateRemaining (now : Int) (s : TimerState) : Int :=
  match s.endTime with
  | some e =>
      if s.status = Status.running ∧ e ≠ 0 then
        max 0 (Int.fdiv (e - now) 1000)
      else s.remaining
  | none => s.remaining

/-- `timerReducer(state, action)`, with the wall-clock reads `Date.now()`
made explicit as `now`. Each case mirrors the corresponding `case` of the
JS `switch`; `CANCEL`, `RESET` and `COMPLETE_ACKNOWLEDGED` all return
`{ ...INITIAL_STATE, duration: state.duration, remaining: state.duration }`. -/
def timerReducer (now : Int) (s : TimerState) (a : Action) : TimerState :=
  match a with
  | Action.RESTORE savedState =>
      match savedState with
      | none => s
      | some saved =>
          match saved.endTime with
          | some e =>
              if saved.status = Status.running ∧ e ≠ 0 then
                if now ≥ e then
                  { saved with status := Status.completed, remaining := 0 }
                else
                  { saved with remaining := Int.fdiv (e - now) 1000 }
              else saved
          | none => saved
  | Action.START_ADJUST => { s with status := Status.adjusting }
  | Action.SET_DURATION minutes =>
      let m := max 1 (min 120 minutes)
      let seconds := m * 60
      { s with duration := seconds, remaining := seconds }
  | Action.END_ADJUST => { s with status := Status.idle }
  | Action.ENTER_DROP_ZONE => { s with status := Status.committing }
  | Action.EXIT_DROP_ZONE => { s with status := Status.adjusting }
  | Action.COMMIT =>
      { s with status := Status.running
               startTime := some now
               endTime := some (now + s.duration * 1000)
               remaining := s.duration }
  | Action.TICK =>
      if s.status ≠ Status.running then s
      else
        let newRemaining := calculateRemaining now s
        if newRemaining ≤ 0 then
          { s with status := Status.completed, remaining := 0 }
        else
          { s with remaining := newRemaining }
  | Action.PAUSE =>
      if s.status ≠ Status.running then s
      else
        { s with status := Status.paused
                 pausedAt := some now
                 remaining := calculateRemaining now s
                 endTime := none }
  | Action.RESUME =>
      if s.status ≠ Status.paused then s
      else
        { s with status := Status.running
                 pausedAt := none
                 endTime := some (now + s.remaining * 1000) }
  | Action.CANCEL =>
      { INITIAL_STATE with duration := s.duration, remaining := s.duration }
  | Action.RESET =>
      { INITIAL_STATE with duration := s.duration, remaining := s.duration }
  | Action.OPEN_SETTINGS => { s with status := Status.settings }
  | Action.CLOSE_SETTINGS => { s with status := Status.idle }
  | Action.COMPLETE_ACKNOWLEDGED =>
      { INITIAL_STATE with duration := s.duration, remaining := s.duration }

/-- The restore-on-mount effect of `useTimerState`: a persisted state is fed
to the reducer as `RESTORE` only when its status is `running` or `paused`;
otherwise the machine keeps its fresh initial state `init`. -/
def restoreOnMount (now : Int) (saved : Option TimerState) (init : TimerState) : TimerState :=
  match saved with
  | some sv =>
      if sv.status = Status.running ∨ sv.status = Status.paused then
        timerReducer now init (Action.RESTORE (some sv))
      else init
  | none => init

/-- Whether an action is the internal `RESTORE` dispatch (issued only by the
mount effect, not part of the public `actions` API of the hook). -/
def isRestore : Action → Bool
  | Action.RESTORE _ => true
  | _ => false

/-- `isOnCircleEdge(touchX, touchY, centerX, centerY, radius, threshold)` of
`src/utils/math.js`: the distance `sqrt(dx*dx + dy*dy)` from the center lies
between `radius * (1 - threshold)` and `radius * 1.1`. Modelled over `ℝ`. -/
def isOnCircleEdge (touchX touchY centerX centerY radius threshold : ℝ) : Prop :=
  radius * (1 - threshold) ≤
      Real.sqrt ((touchX - centerX) ^ 2 + (touchY - centerY) ^ 2) ∧
    Real.sqrt ((touchX - centerX) ^ 2 + (touchY - centerY) ^ 2) ≤ radius * 1.1

/-- States reachable from `INITIAL_STATE` by dispatching public (non-`RESTORE`)
actions whose (state, action) pairs satisfy `ok`, at nondecreasing wall-clock
times (`Date.now()` never goes backwards between dispatches). `ReachWhen ok t s`
says `s` is reachable with `t` the time of the latest dispatch. -/
inductive ReachWhen (ok : TimerState → Action → Prop) : Int → TimerState → Prop where
  | init (t : Int) : ReachWhen ok t INITIAL_STATE
  | step {t t' : Int} {s : TimerState} (a : Action) (hr : isRestore a = false)
      (hok : ok s a) (h : ReachWhen ok t s) (ht : t ≤ t') :
      ReachWhen ok t' (timerReducer t' s a)

/-- Reachability by arbitrary sequences of public timer actions. -/
abbrev Reach : Int → TimerState → Prop :=
  ReachWhen fun _ _ => True

/-- The restriction under which the `remaining ≤ duration` bound survives:
`SET_DURATION` is never dispatched while the status is `running`. -/
def okSafe (s : TimerState) (a : Action) : Prop :=
  s.status = Status.running → ∀ m, a ≠ Action.SET_DURATION m

/-- Reachability by public action sequences that never dispatch
`SET_DURATION` while running. -/
abbrev SafeReach : Int → TimerState → Prop :=
  ReachWhen okSafe

/-- The inductive invariant of the timer machine at latest-dispatch time `t`:
`remaining` and `duration` are nonnegative with `remaining ≤ duration`, and a
running state's `endTime` is at most `duration` seconds past `t`. -/
def Inv (t : Int) (s : TimerState) : Prop :=
  0 ≤ s.duration ∧ 0 ≤ s.remaining ∧ s.remaining ≤ s.duration ∧
    ∀ e, s.status = Status.running → s.endTime = some e →
      e ≤ t + s.duration * 1000

/-- Trace refuting `remaining ≤ duration`: set 120 minutes, commit at time 0,
then (unguarded) set 1 minute while running, then tick at time 0. -/
def cexA : TimerState := timerReducer 0 INITIAL_STATE (Action.SET_DURATION 120)

/-- Second state of the refuting trace: committed, running until 7200000 ms. -/
def cexB : TimerState := timerReducer 0 cexA Action.COMMIT

/-- Third state of the refuting trace: duration cut to 60 s while running,
`endTime` untouched. -/
def cexC : TimerState := timerReducer 0 cexB (Action.SET_DURATION 1)

/-- Final state of the refuting trace: tick recomputes `remaining = 7200`
from the stale `endTime`, far above the new `duration = 60`. -/
def cexD : TimerState := timerReducer 0 cexC Action.TICK

/-- A concrete running state used to exhibit unguarded transitions. -/
def runningState : TimerState :=
  { status := Status.running
    duration := 7200
    remaining := 7200
    startTime := some 0
    pausedAt := none
    endTime := some 7200000 }

/-- A concrete running state whose `endTime` is 500 ms away. -/
def nearEndState : TimerState :=
  { status := Status.running
    duration := 60
    remaining := 1
    startTime := some 0
    pausedAt := none
    endTime := some 10500 }

/-- A concrete paused state frozen at 42 seconds remaining. -/
def pausedState : TimerState :=
  { status := Status.paused
    duration := 1500
    remaining := 42
    startTime := some 0
    pausedAt := some 3000
    endTime := none }

/-- A concrete persisted running state, 900 ms short of its `endTime`. -/
def savedNearEnd : TimerState :=
  { status := Status.running
    duration := 1500
    remaining := 1500
    startTime := some 0
    pausedAt := none
    endTime := some 900 }

/-- A concrete persisted completed state, used for the discard branch. -/
def savedCompleted : TimerState :=
  { status := Status.completed
    duration := 1500
    remaining := 0
    startTime := some 0
    pausedAt := none
    endTime := none }

lemma fdiv_thousand (x : Int) : Int.fdiv x 1000 = x / 1000 :=
  Int.fdiv_eq_ediv _ (by norm_num)

lemma calculateRemaining_of_running {s : TimerState} {e : Int} (now : Int)
    (hst : s.status = Status.running) (he : s.endTime = some e) (hne : e ≠ 0) :
    calculateRemaining now s = max 0 (Int.fdiv (e - now) 1000) := by
  simp [calculateRemaining, he, hst, hne]

lemma tick_of_running {s : TimerState} {e : Int} (now : Int)
    (hst : s.status = Status.running) (he : s.endTime = some e) (hne : e ≠ 0) :
    timerReducer now s Action.TICK =
      if max 0 (Int.fdiv (e - now) 1000) ≤ 0 then
        { s with status := Status.completed, remaining := 0 }
      else { s with remaining := max 0 (Int.fdiv (e - now) 1000) } := by
  have hcalc := calculateRemaining_of_running now hst he hne
  by_cases hle : max 0 (Int.fdiv (e - now) 1000) ≤ 0
  · simp [timerReducer, hst, hcalc, hle]
  · simp [timerReducer, hst, hcalc, hle]

/-- C1: dispatching `TICK` at wall-clock time `now` on a running state with a
set `endTime = e` recomputes `remaining` as `max 0 ⌊(e - now) / 1000⌋`,
independently of the previous `remaining`; if that value is `≤ 0` the state
completes with `remaining = 0`, otherwise only `remaining` changes (the status
stays `running`); and `TICK` on any non-running state is the identity. -/
theorem tick_recomputes_from_wall_clock :
    (∀ (now : Int) (s : TimerState) (e : Int),
        s.status = Status.running → s.endTime = some e → e ≠ 0 →
        (max 0 (Int.fdiv (e - now) 1000) ≤ 0 →
            timerReducer now s Action.TICK =
              { s with status := Status.completed, remaining := 0 }) ∧
          (0 < max 0 (Int.fdiv (e - now) 1000) →
            timerReducer now s Action.TICK =
              { s with remaining := max 0 (Int.fdiv (e - now) 1000) }) ∧
          ∀ x, (timerReducer now { s with remaining := x } Action.TICK).remaining =
            (timerReducer now s Action.TICK).remaining) ∧
      ∀ (now : Int) (s : TimerState), s.status ≠ Status.running →
        timerReducer now s Action.TICK = s := by
  constructor
  · intro now s e hst he hne
    have hbr := tick_of_running now hst he hne
    have hbr2 : ∀ x : Int,
        timerReducer now { s with remaining := x } Action.TICK =
          if max 0 (Int.fdiv (e - now) 1000) ≤ 0 then
            { { s with remaining := x } with
                status := Status.completed, remaining := 0 }
          else
            { { s with remaining := x } with
                remaining := max 0 (Int.fdiv (e - now) 1000) } := by
      intro x
      exact tick_of_running now hst he hne
    refine ⟨?_, ?_, ?_⟩
    · intro hle
      rw [hbr, if_pos hle]
    · intro hpos
      rw [hbr, if_neg (not_le.mpr hpos)]
    · intro x
      rw [hbr, hbr2 x]
  · intro now s hst
    simp [timerReducer, hst]

/-- C1 witness: ticking `nearEndState` (endTime 10500) at time 10000 gives
`remaining = 0` and completes, and ticking a non-running state is a no-op. -/
theorem tick_recomputes_from_wall_clock_witness :
    timerReducer 10000 nearEndState Action.TICK =
        { nearEndState with status := Status.completed, remaining := 0 } ∧
      timerReducer 0 INITIAL_STATE Action.TICK = INITIAL_STATE :=
  ⟨(tick_recomputes_from_wall_clock.1 10000 nearEndState 10500 rfl rfl
      (by norm_num)).1 (by simp [fdiv_thousand]),
    tick_recomputes_from_wall_clock.2 0 INITIAL_STATE (by simp [INITIAL_STATE])⟩

/-- C2: initializing with a persisted running state whose `endTime` has
elapsed yields `completed` with `remaining = 0`; with `endTime` in the future
it yields running with `remaining = ⌊(endTime - now) / 1000⌋`; a persisted
paused state is restored verbatim; any other persisted status is discarded
and the machine keeps its fresh `INITIAL_STATE` (status `idle`). -/
theorem restore_on_initialization :
    (∀ (now : Int) (sv : TimerState) (e : Int),
        sv.status = Status.running → sv.endTime = some e → e ≠ 0 →
        (e ≤ now →
            restoreOnMount now (some sv) INITIAL_STATE =
              { sv with status := Status.completed, remaining := 0 }) ∧
          (now < e →
            restoreOnMount now (some sv) INITIAL_STATE =
              { sv with remaining := Int.fdiv (e - now) 1000 })) ∧
      (∀ (now : Int) (sv : TimerState), sv.status = Status.paused →
        restoreOnMount now (some sv) INITIAL_STATE = sv) ∧
      ∀ (now : Int) (sv : TimerState),
        sv.status ≠ Status.running → sv.status ≠ Status.paused →
        restoreOnMount now (some sv) INITIAL_STATE = INITIAL_STATE := by
  refine ⟨?_, ?_, ?_⟩
  · intro now sv e hst he hne
    constructor
    · intro hpast
      have hge : now ≥ e := hpast
      simp [restoreOnMount, timerReducer, hst, he, hne, hge]
    · intro hfut
      have hnge : ¬ now ≥ e := not_le.mpr hfut
      simp [restoreOnMount, timerReducer, hst, he, hne, hnge]
  · intro now sv hst
    cases he : sv.endTime with
    | none => simp [restoreOnMount, timerReducer, hst, he]
    | some e => simp [restoreOnMount, timerReducer, hst, he]
  · intro now sv h1 h2
    simp [restoreOnMount, h1, h2]

/-- C2 witness: a running state 900 ms past due completes at time 2000; the
paused state is restored verbatim; a persisted completed state is discarded. -/
theorem restore_on_initialization_witness :
    restoreOnMount 2000 (some savedNearEnd) INITIAL_STATE =
        { savedNearEnd with status := Status.completed, remaining := 0 } ∧
      restoreOnMount 2000 (some pausedState) INITIAL_STATE = pausedState ∧
      restoreOnMount 2000 (some savedCompleted) INITIAL_STATE = INITIAL_STATE :=
  ⟨(restore_on_initialization.1 2000 savedNearEnd 900 rfl rfl (by norm_num)).1
      (by norm_num),
    restore_on_initialization.2.1 2000 pausedState rfl,
    restore_on_initialization.2.2 2000 savedCompleted (by simp [savedCompleted])
      (by simp [savedCompleted])⟩

/-- C6: pausing a running state with a set `endTime = e` freezes `remaining`
at `max 0 ⌊(e - now) / 1000⌋`, records `pausedAt = now` and clears `endTime`;
resuming a paused state sets status running, clears `pausedAt`, schedules
`endTime = now + remaining * 1000`, and leaves `remaining` unchanged —
regardless of how much wall-clock time passed while paused. -/
theorem pause_freeze_resume_preserve :
    (∀ (now : Int) (s : TimerState) (e : Int),
        s.status = Status.running → s.endTime = some e → e ≠ 0 →
        timerReducer now s Action.PAUSE =
          { s with status := Status.paused
                   pausedAt := some now
                   remaining := max 0 (Int.fdiv (e - now) 1000)
                   endTime := none }) ∧
      ∀ (now : Int) (s : TimerState), s.status = Status.paused →
        timerReducer now s Action.RESUME =
            { s with status := Status.running
                     pausedAt := none
                     endTime := some (now + s.remaining * 1000) } ∧
          (timerReducer now s Action.RESUME).remaining = s.remaining := by
  constructor
  · intro now s e hst he hne
    have hcalc := calculateRemaining_of_running now hst he hne
    simp [timerReducer, hst, hcalc]
  · intro now s hst
    constructor
    · simp [timerReducer, hst]
    · simp [timerReducer, hst]

/-- C6 witness: pausing `nearEndState` at time 10000 freezes `remaining = 0`;
resuming `pausedState` (42 s frozen) at the much later time 999999 yields
`remaining = 42` and `endTime = 999999 + 42000`. -/
theorem pause_freeze_resume_preserve_witness :
    timerReducer 10000 nearEndState Action.PAUSE =
        { nearEndState with status := Status.paused
                            pausedAt := some 10000
                            remaining := max 0 (Int.fdiv (10500 - 10000) 1000)
                            endTime := none } ∧
      (timerReducer 999999 pausedState Action.RESUME).remaining = 42 :=
  ⟨pause_freeze_resume_preserve.1 10000 nearEndState 10500 rfl rfl (by norm_num),
    (pause_freeze_resume_preserve.2 999999 pausedState rfl).2⟩

/-- C7 counterexample: dispatching `RESET` on a running state whose configured
duration is 7200 s keeps `duration = 7200` instead of restoring the default
`25 * 60 = 1500`: `RESET` is not a hard reset to defaults. -/
theorem reset_hard_default_counterexample :
    (timerReducer 0 runningState Action.RESET).duration = 7200 ∧
      INITIAL_STATE.duration = 1500 ∧ (7200 : Int) ≠ 1500 := by
  refine ⟨?_, rfl, by norm_num⟩
  simp [timerReducer, runningState]

/-- C7 amended: `RESET` from any state returns to `idle` with the configured
duration preserved (`remaining = duration`, `startTime`/`pausedAt`/`endTime`
cleared); it is identical to `CANCEL`, not a hard reset to the default
duration. -/
theorem reset_equals_cancel (now : Int) (s : TimerState) :
    timerReducer now s Action.RESET =
        { status := Status.idle
          duration := s.duration
          remaining := s.duration
          startTime := none
          pausedAt := none
          endTime := none } ∧
      timerReducer now s Action.RESET = timerReducer now s Action.CANCEL := by
  constructor
  · simp [timerReducer, INITIAL_STATE]
  · simp [timerReducer]

/-- C8: `SET_DURATION m` sets both `duration` and `remaining` to
`min 120 (max 1 m) * 60` in every state — inputs inside `[1, 120]` are stored
as `m * 60` seconds, inputs outside are clamped to the nearest bound, and the
action never fails. -/
theorem setDuration_clamp_spec (now : Int) (s : TimerState) (m : Int) :
    timerReducer now s (Action.SET_DURATION m) =
        { s with duration := min 120 (max 1 m) * 60
                 remaining := min 120 (max 1 m) * 60 } ∧
      (1 ≤ m → m ≤ 120 →
        (timerReducer now s (Action.SET_DURATION m)).duration = m * 60) := by
  have hc : max 1 (min 120 m) = min 120 (max 1 m) := by omega
  constructor
  · simp [timerReducer, hc]
  · intro h1 h2
    have hm : max 1 (min 120 m) = m := by omega
    simp [timerReducer, hm]

/-- C8 witness: `SET_DURATION 30` stores 1800 s, `SET_DURATION 500` clamps to
`120 * 60`, `SET_DURATION (-7)` clamps to `1 * 60`. -/
theorem setDuration_clamp_spec_witness :
    (timerReducer 0 INITIAL_STATE (Action.SET_DURATION 30)).duration = 30 * 60 ∧
      timerReducer 0 INITIAL_STATE (Action.SET_DURATION 500) =
        { INITIAL_STATE with duration := min 120 (max 1 500) * 60
                             remaining := min 120 (max 1 500) * 60 } ∧
      timerReducer 0 INITIAL_STATE (Action.SET_DURATION (-7)) =
        { INITIAL_STATE with duration := min 120 (max 1 (-7)) * 60
                             remaining := min 120 (max 1 (-7)) * 60 } :=
  ⟨(setDuration_clamp_spec 0 INITIAL_STATE 30).2 (by norm_num) (by norm_num),
    (setDuration_clamp_spec 0 INITIAL_STATE 500).1,
    (setDuration_clamp_spec 0 INITIAL_STATE (-7)).1⟩

/-- C10: restoring a persisted running state whose `endTime` is in the future
by strictly less than 1000 ms yields status `running` with `remaining = 0`
(not `completed` — the completion branch fires only when `now ≥ endTime`), so
a running state with zero remaining is observable; any tick dispatched at or
after that moment then moves it to `completed` with `remaining = 0`. -/
theorem restore_subsecond_running_zero :
    ∀ (now : Int) (sv : TimerState) (e : Int),
      sv.status = Status.running → sv.endTime = some e → e ≠ 0 →
      now < e → e - now < 1000 →
      (restoreOnMount now (some sv) INITIAL_STATE).status = Status.running ∧
        (restoreOnMount now (some sv) INITIAL_STATE).remaining = 0 ∧
        ∀ now2, now ≤ now2 →
          timerReducer now2 (restoreOnMount now (some sv) INITIAL_STATE)
              Action.TICK =
            { restoreOnMount now (some sv) INITIAL_STATE with
                status := Status.completed, remaining := 0 } := by
  intro now sv e hst he hne hfut hsub
  have hnge : ¬ now ≥ e := not_le.mpr hfut
  have hre : restoreOnMount now (some sv) INITIAL_STATE =
      { sv with remaining := Int.fdiv (e - now) 1000 } := by
    simp [restoreOnMount, timerReducer, hst, he, hne, hnge]
  have hzero : Int.fdiv (e - now) 1000 = 0 := by
    rw [fdiv_thousand]
    omega
  refine ⟨by rw [hre]; exact hst, by rw [hre]; simp [hzero], ?_⟩
  intro now2 hle
  rw [hre]
  have hbr := tick_of_running now2
      (show TimerState.status { sv with remaining := Int.fdiv (e - now) 1000 } =
        Status.running from hst)
      (show TimerState.endTime { sv with remaining := Int.fdiv (e - now) 1000 } =
        some e from he) hne
  rw [hbr, if_pos]
  rw [fdiv_thousand]
  omega

/-- C10 witness: restoring `savedNearEnd` (endTime 900) at time 0 yields a
running state with `remaining = 0`, and ticking it at time 0 completes it. -/
theorem restore_subsecond_running_zero_witness :
    (restoreOnMount 0 (some savedNearEnd) INITIAL_STATE).status =
        Status.running ∧
      (restoreOnMount 0 (some savedNearEnd) INITIAL_STATE).remaining = 0 ∧
      timerReducer 0 (restoreOnMount 0 (some savedNearEnd) INITIAL_STATE)
          Action.TICK =
        { restoreOnMount 0 (some savedNearEnd) INITIAL_STATE with
            status := Status.completed, remaining := 0 } := by
  have h := restore_subsecond_running_zero 0 savedNearEnd 900 rfl rfl
    (by norm_num) (by norm_num) (by norm_num)
  exact ⟨h.1, h.2.1, h.2.2 0 le_rfl⟩

lemma sqrt_on_axis (a : ℝ) (h : 0 ≤ a) :
    Real.sqrt ((a - 0) ^ 2 + (0 - 0) ^ 2) = a := by
  have hsq : (a - 0) ^ 2 + (0 - 0) ^ 2 = a ^ 2 := by ring
  rw [hsq, Real.sqrt_sq h]

/-- C9: `isOnCircleEdge x y cx cy r t` holds iff the Euclidean distance of
`(x, y)` from `(cx, cy)` lies in the closed interval
`[r * (1 - t), r * 1.1]`; for radius 100 at the origin with threshold 0.3
(bounds 70 and 110), distance 75 is on-edge, 65 is not, 105 is on-edge and
115 is not. -/
theorem isOnCircleEdge_spec :
    (∀ x y cx cy r t : ℝ,
        isOnCircleEdge x y cx cy r t ↔
          Real.sqrt ((x - cx) ^ 2 + (y - cy) ^ 2) ∈
            Set.Icc (r * (1 - t)) (r * 1.1)) ∧
      isOnCircleEdge 75 0 0 0 100 0.3 ∧
      ¬ isOnCircleEdge 65 0 0 0 100 0.3 ∧
      isOnCircleEdge 105 0 0 0 100 0.3 ∧
      ¬ isOnCircleEdge 115 0 0 0 100 0.3 := by
  refine ⟨?_, ?_, ?_, ?_, ?_⟩
  · intro x y cx cy r t
    rw [Set.mem_Icc]
    exact Iff.rfl
  · constructor
    · rw [sqrt_on_axis 75 (by norm_num)]
      norm_num
    · rw [sqrt_on_axis 75 (by norm_num)]
      norm_num
  · intro h
    have h1 := h.1
    rw [sqrt_on_axis 65 (by norm_num)] at h1
    norm_num at h1
  · constructor
    · rw [sqrt_on_axis 105 (by norm_num)]
      norm_num
    · rw [sqrt_on_axis 105 (by norm_num)]
      norm_num
  · intro h
    have h2 := h.2
    rw [sqrt_on_axis 115 (by norm_num)] at h2
    norm_num at h2

/-- C4 counterexample: `START_ADJUST` dispatched on a running state — a
(from-status, event) pair absent from the state table — is not a no-op: it
moves the status to `adjusting`. -/
theorem invalid_action_noop_counterexample :
    runningState.status = Status.running ∧
      (timerReducer 0 runningState Action.START_ADJUST).status =
        Status.adjusting ∧
      timerReducer 0 runningState Action.START_ADJUST ≠ runningState := by
  refine ⟨rfl, by simp [timerReducer, runningState], ?_⟩
  intro h
  have hs := congrArg TimerState.status h
  simp [timerReducer, runningState] at hs

/-- C4 amended: the reducer is total (every dispatch returns a state, never an
error), and the actions that carry a status guard — `TICK` and `PAUSE` when
not running, `RESUME` when not paused — are no-ops there; but unguarded
actions such as `START_ADJUST`, `SET_DURATION`, `ENTER_DROP_ZONE` or `COMMIT`
apply their effect in every status rather than no-opping on pairs outside the
state table. -/
theorem reducer_totality_and_guards :
    (∀ (now : Int) (s : TimerState) (a : Action),
        ∃ s2, timerReducer now s a = s2) ∧
      (∀ (now : Int) (s : TimerState), s.status ≠ Status.running →
        timerReducer now s Action.TICK = s ∧
          timerReducer now s Action.PAUSE = s) ∧
      ∀ (now : Int) (s : TimerState), s.status ≠ Status.paused →
        timerReducer now s Action.RESUME = s := by
  refine ⟨fun now s a => ⟨timerReducer now s a, rfl⟩, ?_, ?_⟩
  · intro now s h
    constructor
    · simp [timerReducer, h]
    · simp [timerReducer, h]
  · intro now s h
    simp [timerReducer, h]

/-- C4 witness: the reducer returns a state for a concrete commit; ticking
and pausing the paused state are no-ops; resuming the running state is a
no-op. -/
theorem reducer_totality_and_guards_witness :
    (∃ s2, timerReducer 0 INITIAL_STATE Action.COMMIT = s2) ∧
      timerReducer 0 pausedState Action.TICK = pausedState ∧
      timerReducer 0 pausedState Action.PAUSE = pausedState ∧
      timerReducer 0 runningState Action.RESUME = runningState :=
  ⟨reducer_totality_and_guards.1 0 INITIAL_STATE Action.COMMIT,
    (reducer_totality_and_guards.2.1 0 pausedState (by decide)).1,
    (reducer_totality_and_guards.2.1 0 pausedState (by decide)).2,
    reducer_totality_and_guards.2.2 0 runningState (by decide)⟩

/-- C5 counterexample: `SET_DURATION 1` dispatched on a running state with
`duration = 7200` changes `duration` to 60 — the reducer does not freeze
`duration` while running. -/
theorem duration_frozen_counterexample :
    runningState.status = Status.running ∧ runningState.duration = 7200 ∧
      (timerReducer 0 runningState (Action.SET_DURATION 1)).duration = 60 := by
  refine ⟨rfl, rfl, ?_⟩
  norm_num [timerReducer, runningState]

/-- C5 amended: among the public actions only `SET_DURATION` writes
`duration`, but `SET_DURATION` is not guarded by status: in every state —
including `running` — it sets `duration = min 120 (max 1 m) * 60`. The
freeze while running is not enforced by the reducer. -/
theorem duration_mutation_amended :
    (∀ (now : Int) (s : TimerState) (a : Action), isRestore a = false →
        (∀ m, a ≠ Action.SET_DURATION m) →
        (timerReducer now s a).duration = s.duration) ∧
      ∀ (now : Int) (s : TimerState) (m : Int),
        (timerReducer now s (Action.SET_DURATION m)).duration =
          min 120 (max 1 m) * 60 := by
  constructor
  · intro now s a hr hm
    cases a with
    | RESTORE sv => simp [isRestore] at hr
    | SET_DURATION m => exact absurd rfl (hm m)
    | TICK =>
        by_cases h : s.status = Status.running
        · by_cases h2 : calculateRemaining now s ≤ 0 <;>
            simp [timerReducer, h, h2]
        · simp [timerReducer, h]
    | PAUSE => by_cases h : s.status = Status.running <;> simp [timerReducer, h]
    | RESUME => by_cases h : s.status = Status.paused <;> simp [timerReducer, h]
    | START_ADJUST => simp [timerReducer]
    | END_ADJUST => simp [timerReducer]
    | ENTER_DROP_ZONE => simp [timerReducer]
    | EXIT_DROP_ZONE => simp [timerReducer]
    | COMMIT => simp [timerReducer]
    | CANCEL => simp [timerReducer]
    | RESET => simp [timerReducer]
    | OPEN_SETTINGS => simp [timerReducer]
    | CLOSE_SETTINGS => simp [timerReducer]
    | COMPLETE_ACKNOWLEDGED => simp [timerReducer]
  · intro now s m
    have hc : max 1 (min 120 m) = min 120 (max 1 m) := by omega
    simp [timerReducer, hc]

/-- C5 witness: ticking the running state keeps `duration = 7200`, and
`SET_DURATION 1` on the same running state stores `min 120 (max 1 1) * 60`. -/
theorem duration_mutation_amended_witness :
    (timerReducer 0 runningState Action.TICK).duration =
        runningState.duration ∧
      (timerReducer 0 runningState (Action.SET_DURATION 1)).duration =
        min 120 (max 1 1) * 60 :=
  ⟨duration_mutation_amended.1 0 runningState Action.TICK rfl
      (fun _ h => Action.noConfusion h),
    duration_mutation_amended.2 0 runningState 1⟩

lemma calculateRemaining_nonneg (now : Int) {s : TimerState}
    (h : 0 ≤ s.remaining) : 0 ≤ calculateRemaining now s := by
  unfold calculateRemaining
  cases s.endTime with
  | none => exact h
  | some e =>
      by_cases hc : s.status = Status.running ∧ e ≠ 0
      · simp [hc]
      · simp [hc, h]

lemma calculateRemaining_bounds {t t' : Int} {s : TimerState}
    (hd : 0 ≤ s.duration) (hr0 : 0 ≤ s.remaining) (hrd : s.remaining ≤ s.duration)
    (hend : ∀ e, s.status = Status.running → s.endTime = some e →
      e ≤ t + s.duration * 1000)
    (ht : t ≤ t') :
    0 ≤ calculateRemaining t' s ∧ calculateRemaining t' s ≤ s.duration := by
  unfold calculateRemaining
  cases he : s.endTime with
  | none => exact ⟨hr0, hrd⟩
  | some e =>
      by_cases hc : s.status = Status.running ∧ e ≠ 0
      · have h1 : e ≤ t + s.duration * 1000 := hend e hc.1 he
        have h2 : Int.fdiv (e - t') 1000 ≤ s.duration := by
          rw [fdiv_thousand]
          omega
        dsimp only
        rw [if_pos hc]
        constructor
        · exact le_max_left 0 _
        · exact max_le hd h2
      · dsimp only
        rw [if_neg hc]
        exact ⟨hr0, hrd⟩

lemma Inv_mono {t t' : Int} {s : TimerState} (ht : t ≤ t') (h : Inv t s) :
    Inv t' s := by
  obtain ⟨hd, hr0, hrd, hend⟩ := h
  refine ⟨hd, hr0, hrd, ?_⟩
  intro e hst he
  have := hend e hst he
  omega

lemma Inv_initial (t : Int) : Inv t INITIAL_STATE := by
  refine ⟨by norm_num [INITIAL_STATE], by norm_num [INITIAL_STATE],
    le_refl _, ?_⟩
  intro e _ he
  simp [INITIAL_STATE] at he

lemma Inv_step {t t' : Int} {s : TimerState} (a : Action)
    (hr : isRestore a = false) (hok : okSafe s a) (ht : t ≤ t') (ih : Inv t s) :
    Inv t' (timerReducer t' s a) := by
  obtain ⟨hd, hr0, hrd, hend⟩ := ih
  cases a with
  | RESTORE sv => simp [isRestore] at hr
  | START_ADJUST =>
      refine ⟨hd, hr0, hrd, ?_⟩
      intro e hst he
      simp [timerReducer] at hst
  | SET_DURATION m =>
      have hni : timerReducer t' s (Action.SET_DURATION m) =
          { s with duration := max 1 (min 120 m) * 60
                   remaining := max 1 (min 120 m) * 60 } := by
        simp [timerReducer]
      rw [hni]
      refine ⟨?_, ?_, ?_, ?_⟩
      · show (0 : Int) ≤ max 1 (min 120 m) * 60
        omega
      · show (0 : Int) ≤ max 1 (min 120 m) * 60
        omega
      · show max 1 (min 120 m) * 60 ≤ max 1 (min 120 m) * 60
        omega
      · intro e hst2 he
        have hs : s.status = Status.running := hst2
        exact absurd rfl (hok hs m)
  | END_ADJUST =>
      refine ⟨hd, hr0, hrd, ?_⟩
      intro e hst he
      simp [timerReducer] at hst
  | ENTER_DROP_ZONE =>
      refine ⟨hd, hr0, hrd, ?_⟩
      intro e hst he
      simp [timerReducer] at hst
  | EXIT_DROP_ZONE =>
      refine ⟨hd, hr0, hrd, ?_⟩
      intro e hst he
      simp [timerReducer] at hst
  | COMMIT =>
      have hni : timerReducer t' s Action.COMMIT =
          { s with status := Status.running
                   startTime := some t'
                   endTime := some (t' + s.duration * 1000)
                   remaining := s.duration } := by
        simp [timerReducer]
      rw [hni]
      refine ⟨hd, hd, le_refl _, ?_⟩
      intro e hst2 he
      have h2 : t' + s.duration * 1000 = e := Option.some_injective _ he
      show e ≤ t' + s.duration * 1000
      omega
  | TICK =>
      by_cases hst : s.status = Status.running
      · have hb := calculateRemaining_bounds hd hr0 hrd hend ht
        by_cases hle : calculateRemaining t' s ≤ 0
        · have hni : timerReducer t' s Action.TICK =
              { s with status := Status.completed, remaining := 0 } := by
            simp [timerReducer, hst, hle]
          rw [hni]
          refine ⟨hd, le_refl 0, hd, ?_⟩
          intro e hst2 he
          simp at hst2
        · have hni : timerReducer t' s Action.TICK =
              { s with remaining := calculateRemaining t' s } := by
            simp [timerReducer, hst, hle]
          rw [hni]
          refine ⟨hd, hb.1, hb.2, ?_⟩
          intro e hst2 he
          have h1 : e ≤ t + s.duration * 1000 := hend e hst he
          show e ≤ t' + s.duration * 1000
          omega
      · have hni : timerReducer t' s Action.TICK = s := by
          simp [timerReducer, hst]
        rw [hni]
        exact Inv_mono ht ⟨hd, hr0, hrd, hend⟩
  | PAUSE =>
      by_cases hst : s.status = Status.running
      · have hb := calculateRemaining_bounds hd hr0 hrd hend ht
        have hni : timerReducer t' s Action.PAUSE =
            { s with status := Status.paused
                     pausedAt := some t'
                     remaining := calculateRemaining t' s
                     endTime := none } := by
          simp [timerReducer, hst]
        rw [hni]
        refine ⟨hd, hb.1, hb.2, ?_⟩
        intro e hst2 he
        simp at hst2
      · have hni : timerReducer t' s Action.PAUSE = s := by
          simp [timerReducer, hst]
        rw [hni]
        exact Inv_mono ht ⟨hd, hr0, hrd, hend⟩
  | RESUME =>
      by_cases hst : s.status = Status.paused
      · have hni : timerReducer t' s Action.RESUME =
            { s with status := Status.running
                     pausedAt := none
                     endTime := some (t' + s.remaining * 1000) } := by
          simp [timerReducer, hst]
        rw [hni]
        refine ⟨hd, hr0, hrd, ?_⟩
        intro e hst2 he
        have h2 : t' + s.remaining * 1000 = e := Option.some_injective _ he
        show e ≤ t' + s.duration * 1000
        omega
      · have hni : timerReducer t' s Action.RESUME = s := by
          simp [timerReducer, hst]
        rw [hni]
        exact Inv_mono ht ⟨hd, hr0, hrd, hend⟩
  | CANCEL =>
      refine ⟨hd, hd, le_refl _, ?_⟩
      intro e hst he
      simp [timerReducer, INITIAL_STATE] at hst
  | RESET =>
      refine ⟨hd, hd, le_refl _, ?_⟩
      intro e hst he
      simp [timerReducer, INITIAL_STATE] at hst
  | OPEN_SETTINGS =>
      refine ⟨hd, hr0, hrd, ?_⟩
      intro e hst he
      simp [timerReducer] at hst
  | CLOSE_SETTINGS =>
      refine ⟨hd, hr0, hrd, ?_⟩
      intro e hst he
      simp [timerReducer] at hst
  | COMPLETE_ACKNOWLEDGED =>
      refine ⟨hd, hd, le_refl _, ?_⟩
      intro e hst he
      simp [timerReducer, INITIAL_STATE] at hst

lemma safeReach_inv {t : Int} {s : TimerState} (h : SafeReach t s) : Inv t s := by
  induction h with
  | init t => exact Inv_initial t
  | step a hr hok h ht ih => exact Inv_step a hr hok ht ih

lemma nonneg_step {t' : Int} {s : TimerState} (a : Action)
    (hr : isRestore a = false)
    (ih : 0 ≤ s.duration ∧ 0 ≤ s.remaining) :
    0 ≤ (timerReducer t' s a).duration ∧
      0 ≤ (timerReducer t' s a).remaining := by
  obtain ⟨hd, hr0⟩ := ih
  cases a with
  | RESTORE sv => simp [isRestore] at hr
  | START_ADJUST => exact ⟨hd, hr0⟩
  | SET_DURATION m =>
      constructor
      · show (0 : Int) ≤ max 1 (min 120 m) * 60
        omega
      · show (0 : Int) ≤ max 1 (min 120 m) * 60
        omega
  | END_ADJUST => exact ⟨hd, hr0⟩
  | ENTER_DROP_ZONE => exact ⟨hd, hr0⟩
  | EXIT_DROP_ZONE => exact ⟨hd, hr0⟩
  | COMMIT => exact ⟨hd, hd⟩
  | TICK =>
      by_cases hst : s.status = Status.running
      · by_cases hle : calculateRemaining t' s ≤ 0
        · have hni : timerReducer t' s Action.TICK =
              { s with status := Status.completed, remaining := 0 } := by
            simp [timerReducer, hst, hle]
          rw [hni]
          exact ⟨hd, le_refl 0⟩
        · have hni : timerReducer t' s Action.TICK =
              { s with remaining := calculateRemaining t' s } := by
            simp [timerReducer, hst, hle]
          rw [hni]
          exact ⟨hd, calculateRemaining_nonneg t' hr0⟩
      · have hni : timerReducer t' s Action.TICK = s := by
          simp [timerReducer, hst]
        rw [hni]
        exact ⟨hd, hr0⟩
  | PAUSE =>
      by_cases hst : s.status = Status.running
      · have hni : timerReducer t' s Action.PAUSE =
            { s with status := Status.paused
                     pausedAt := some t'
                     remaining := calculateRemaining t' s
                     endTime := none } := by
          simp [timerReducer, hst]
        rw [hni]
        exact ⟨hd, calculateRemaining_nonneg t' hr0⟩
      · have hni : timerReducer t' s Action.PAUSE = s := by
          simp [timerReducer, hst]
        rw [hni]
        exact ⟨hd, hr0⟩
  | RESUME =>
      by_cases hst : s.status = Status.paused
      · have hni : timerReducer t' s Action.RESUME =
            { s with status := Status.running
                     pausedAt := none
                     endTime := some (t' + s.remaining * 1000) } := by
          simp [timerReducer, hst]
        rw [hni]
        exact ⟨hd, hr0⟩
      · have hni : timerReducer t' s Action.RESUME = s := by
          simp [timerReducer, hst]
        rw [hni]
        exact ⟨hd, hr0⟩
  | CANCEL => exact ⟨hd, hd⟩
  | RESET => exact ⟨hd, hd⟩
  | OPEN_SETTINGS => exact ⟨hd, hr0⟩
  | CLOSE_SETTINGS => exact ⟨hd, hr0⟩
  | COMPLETE_ACKNOWLEDGED => exact ⟨hd, hd⟩

lemma reach_nonneg {t : Int} {s : TimerState} (h : Reach t s) :
    0 ≤ s.duration ∧ 0 ≤ s.remaining := by
  induction h with
  | init t => constructor <;> norm_num [INITIAL_STATE]
  | step a hr hok h ht ih => exact nonneg_step a hr ih

/-- C3 counterexample: a reachable state violating `remaining ≤ duration`.
From `INITIAL_STATE`, dispatch `SET_DURATION 120`, `COMMIT` (all at time 0),
then — unguarded — `SET_DURATION 1` while running, then `TICK` at time 0:
the tick recomputes `remaining = 7200` from the stale `endTime`, while
`duration` is now `60`. -/
theorem remaining_invariant_counterexample :
    Reach 0 cexD ∧ ¬ cexD.remaining ≤ cexD.duration := by
  constructor
  · have h0 : Reach 0 INITIAL_STATE := ReachWhen.init 0
    have h1 : Reach 0 cexA :=
      ReachWhen.step (Action.SET_DURATION 120) rfl trivial h0 le_rfl
    have h2 : Reach 0 cexB := ReachWhen.step Action.COMMIT rfl trivial h1 le_rfl
    have h3 : Reach 0 cexC :=
      ReachWhen.step (Action.SET_DURATION 1) rfl trivial h2 le_rfl
    exact ReachWhen.step Action.TICK rfl trivial h3 le_rfl
  · norm_num [cexD, cexC, cexB, cexA, timerReducer, calculateRemaining,
      INITIAL_STATE, Int.fdiv]

/-- C3 amended: in every state reachable from `INITIAL_STATE` by public
timer actions (dispatched at nondecreasing wall-clock times),
`0 ≤ remaining`; and `0 ≤ remaining ≤ duration` holds for every state
reachable by such sequences that never dispatch `SET_DURATION` while the
status is `running` (the unguarded `SET_DURATION` during `running` is the
only way to break the upper bound). -/
theorem remaining_invariant_amended :
    (∀ (t : Int) (s : TimerState), Reach t s → 0 ≤ s.remaining) ∧
      ∀ (t : Int) (s : TimerState), SafeReach t s →
        0 ≤ s.remaining ∧ s.remaining ≤ s.duration := by
  constructor
  · intro t s h
    exact (reach_nonneg h).2
  · intro t s h
    have hi := safeReach_inv h
    exact ⟨hi.2.1, hi.2.2.1⟩

/-- C3 witness: both parts of the amended invariant applied to the initial
state (reachable by the empty action sequence). -/
theorem remaining_invariant_amended_witness :
    0 ≤ INITIAL_STATE.remaining ∧
      (0 ≤ INITIAL_STATE.remaining ∧
        INITIAL_STATE.remaining ≤ INITIAL_STATE.duration) :=
  ⟨remaining_invariant_amended.1 0 INITIAL_STATE (ReachWhen.init 0),
    remaining_invariant_amended.2 0 INITIAL_STATE (ReachWhen.init 0)⟩

end TheZen
